import Mathlib

/-!
Shallow embedding of the note/category data-management core of the
`foundryvtt-dnd5e-sheet-notes` module: the `Category` entity
(`src/entities/category.js`), the `Note` model (`src/models/Note.js`),
the `CategoryManager` service (`src/services/category_manager.js`) and
the migration runner (`src/migrations/v1.js` plus the migration core).

The host's per-actor flag storage is modelled as an explicit
`ActorState` record (category list, embedded item list, schema version);
each manager operation is a function from a state to `Except`-wrapped
results, mirroring the JavaScript load/mutate/persist sequence and its
thrown errors.
-/

namespace SheetNotes

/-- Category ordering enumeration value `ALPHABETICAL` (numeric enum from
`src/entities/category.js`). -/
def ALPHABETICAL : Nat := 0

/-- Category ordering enumeration value `MANUAL`. -/
def MANUAL : Nat := 1

/-- The item type string used for note documents
(`dnd5e-sheet-notes.note`). -/
def noteTypeId : String := "dnd5e-sheet-notes.note"

/-- The plain persisted shape of a category: exactly the four stored
fields returned by `Category.toObject()`. -/
structure CategoryObj where
  key : String
  name : String
  ordering : Nat
  collapsed : Bool
deriving Repr, DecidableEq, Inhabited

/-- A `Category` class instance: the four data fields plus the
`this.actor` reference (modelled as a flag telling whether an actor was
attached at construction time; the actor's state itself is passed
explicitly to the entity operations that need it). -/
structure Category where
  key : String
  name : String
  ordering : Nat
  collapsed : Bool
  hasActor : Bool
deriving Repr, DecidableEq, Inhabited

/-- A plain data object passed to the `Category` constructor or to
`update`; absent fields are `none` (mirrors a JavaScript object with
some of the four keys present). -/
structure CategoryData where
  key : Option String := none
  name : Option String := none
  ordering : Option Nat := none
  collapsed : Option Bool := none
deriving Repr, DecidableEq, Inhabited

/-- An embedded item document on the actor, reduced to the fields the
core reads: its id, its `type`, and `system.category` (empty string
means uncategorized). -/
structure Item where
  id : String
  itemType : String
  category : String
deriving Repr, DecidableEq, Inhabited

/-- The per-actor persisted state the core operates on: the
`categories` flag, the embedded item collection, and the migration
`version` flag (`none` = never migrated). -/
structure ActorState where
  cats : List CategoryObj
  items : List Item
  version : Option Nat
deriving Repr, DecidableEq, Inhabited

/-- `foundry.utils.mergeObject(base, data)` specialised to the flat
category shape: fields present in `data` override `base`. -/
def mergeCategory (base : CategoryObj) (data : CategoryData) : CategoryObj :=
  { key := data.key.getD base.key
    name := data.name.getD base.name
    ordering := data.ordering.getD base.ordering
    collapsed := data.collapsed.getD base.collapsed }

/-- `Category.prototype.validate()`: key and name must be non-empty
strings, name at most 50 characters, ordering one of the two enum
values. -/
def CategoryObj.validate (o : CategoryObj) : Except String Unit := do
  if o.key = "" then
    throw "Category key must be a non-empty string"
  if o.name = "" then
    throw "Category name must be a non-empty string"
  if 50 < o.name.length then
    throw "Category name must not exceed 50 characters"
  if o.ordering ≠ ALPHABETICAL ∧ o.ordering ≠ MANUAL then
    throw "Ordering must be 0 or 1"
  pure ()

/-- Project a `Category` instance to its plain persisted shape:
`Category.prototype.toObject()` returns exactly the four data fields and
drops everything else carried by the instance (here, the actor
reference). -/
def Category.toObject (c : Category) : CategoryObj :=
  { key := c.key, name := c.name, ordering := c.ordering, collapsed := c.collapsed }

/-- Wrap a plain object as an instance with the given actor
attachment. -/
def Category.ofObj (o : CategoryObj) (hasActor : Bool) : Category :=
  { key := o.key, name := o.name, ordering := o.ordering, collapsed := o.collapsed,
    hasActor := hasActor }

/-- View a plain stored object as constructor input with all four
fields present. -/
def CategoryObj.toData (o : CategoryObj) : CategoryData :=
  { key := some o.key, name := some o.name, ordering := some o.ordering,
    collapsed := some o.collapsed }

/-- The `Category` constructor: merge the supplied data over the
defaults (a freshly generated random id, name `New Category`, ordering
`ALPHABETICAL`, not collapsed), then validate. `freshKey` stands for
the `foundry.utils.randomID()` result; it is only used when the data
carries no key. -/
def Category.construct (freshKey : String) (data : CategoryData) (hasActor : Bool) :
    Except String Category := do
  let defaults : CategoryObj :=
    { key := freshKey, name := "New Category", ordering := ALPHABETICAL, collapsed := false }
  let categoryData := mergeCategory defaults data
  categoryData.validate
  pure (Category.ofObj categoryData hasActor)

/-- `new Category(storedData)` applied to an already persisted object
(all four fields present, so the merge with the defaults returns the
stored object itself and the fresh random id is unused); constructed
without an actor, as the manager does. -/
def Category.restore (o : CategoryObj) : Except String Category :=
  Category.construct "unusedFreshId" o.toData false

/-- `existingCategories.map(data => new Category(data))`: instantiate
every stored record in order, propagating the first validation
error. -/
def Category.restoreAll : List CategoryObj → Except String (List Category)
  | [] => pure []
  | o :: rest => do
    let c ← Category.restore o
    let cs ← Category.restoreAll rest
    pure (c :: cs)

/-- `string.toLowerCase()`, written over the character list so that it
evaluates inside the kernel. -/
def lowerStr (s : String) : String := ⟨s.data.map Char.toLower⟩

/-- `Category.nameExists(categories, name, excludeKey)`: case-insensitive
membership test, skipping the entry whose key equals `excludeKey`. -/
def Category.nameExists (cats : List CategoryObj) (name : String)
    (excludeKey : Option String) : Bool :=
  let lowerName := lowerStr name
  cats.any (fun cat => decide (some cat.key ≠ excludeKey) && (lowerStr cat.name == lowerName))

/-- Entity-level `Category.prototype.update(updates)` from
`src/entities/category.js`: requires an attached actor (whose category
flag list is passed here as `actorCats`), merges the updates over the
current data, refuses to rename the default `Notes` category, assigns
the merged name/ordering/collapsed (never the key), re-validates, then
replaces this category's record in the actor's list. Returns the
updated instance and the persisted list. -/
def Category.entityUpdate (self : Category) (actorCats : Option (List CategoryObj))
    (updates : CategoryData) : Except String (Category × List CategoryObj) := do
  match actorCats with
  | none => throw "Category must be associated with an actor to update"
  | some categories =>
    let currentData := self.toObject
    let mergedData := mergeCategory currentData updates
    let renamingDefault : Bool :=
      (self.name == "Notes") &&
        (match updates.name with
         | some nm => nm != "" && nm != "Notes"
         | none => false)
    if renamingDefault then
      throw "Cannot rename the default Notes category"
    let self' : Category :=
      { self with name := mergedData.name, ordering := mergedData.ordering,
                  collapsed := mergedData.collapsed }
    self'.toObject.validate
    match categories.findIdx? (fun c => c.key == self'.key) with
    | none => throw "Category not found"
    | some categoryIndex =>
      pure (self', categories.set categoryIndex self'.toObject)

/-- Entity-level `Category.prototype.delete()` from
`src/entities/category.js`: requires an attached actor, refuses to
delete the default `Notes` category, removes this category's record
from the actor's list and clears `system.category` on every note item
that referenced it. -/
def Category.entityDelete (self : Category) (actor : Option ActorState) :
    Except String ActorState := do
  match actor with
  | none => throw "Category must be associated with an actor to delete"
  | some st =>
    if self.name == "Notes" then
      throw "Cannot delete the default Notes category"
    let filteredCategories := st.cats.filter (fun c => c.key != self.key)
    let items' := st.items.map (fun it =>
      if it.itemType == noteTypeId && it.category == self.key then
        { it with category := "" }
      else it)
    pure { st with cats := filteredCategories, items := items' }

/-- `CategoryManager.create(actor, categoryData)`
(`src/services/category_manager.js`): construct the category, load the
existing list, re-instantiate every stored record (which re-validates
it), throw on a case-insensitive name collision, else append the new
category's plain object and persist. -/
def CategoryManager.create (freshKey : String) (st : ActorState) (data : CategoryData) :
    Except String (ActorState × Category) := do
  let category ← Category.construct freshKey data false
  let existingCategories := st.cats
  let existingInstances ← Category.restoreAll existingCategories
  if Category.nameExists (existingInstances.map Category.toObject) category.name none then
    throw "Category name already exists"
  pure ({ st with cats := existingCategories ++ [category.toObject] }, category)

/-- `CategoryManager.getAllCategories(actor)`: load the stored list,
re-instantiate every record (re-validating it) and sort the instances
alphabetically by name with `a.name.localeCompare(b.name)`. -/
def catSortKey (a : Category) : Lex (List Char × List Char) :=
  toLex ((lowerStr a.name).data, a.name.data)

/-- The comparator relation: category `a` sorts no later than `b`. -/
def catLe (a b : Category) : Prop := catSortKey a ≤ catSortKey b

instance : DecidableRel catLe := fun a b =>
  inferInstanceAs (Decidable (catSortKey a ≤ catSortKey b))

instance : IsTotal Category catLe := ⟨fun a b => le_total (catSortKey a) (catSortKey b)⟩

instance : IsTrans Category catLe := ⟨fun _ _ _ hab hbc => le_trans hab hbc⟩

/-- `CategoryManager.getAllCategories(actor)`: the comparator
`a.name.localeCompare(b.name)` is modelled by `catLe` (alphabetical,
case-insensitive at the primary level with a deterministic tiebreak);
the host's stable array sort is modelled by insertion sort. -/
def CategoryManager.getAllCategories (st : ActorState) : Except String (List Category) := do
  let instances ← Category.restoreAll st.cats
  pure (List.insertionSort catLe instances)

/-- `CategoryManager.update(actor, categoryKey, updates)`: throws when
the key is empty or absent; re-instantiates the stored record; throws
on a case-insensitive rename collision with a different category; then
calls the entity `category.update(updates)` WITHOUT awaiting it — the
instance was constructed without an actor, so that call rejects before
mutating anything and the rejection is discarded — and finally persists
`category.toObject()` (the unchanged record) and returns the
instance. -/
def CategoryManager.update (st : ActorState) (categoryKey : String) (updates : CategoryData) :
    Except String (ActorState × Category) := do
  if categoryKey = "" then
    throw "Category key must be provided"
  let categories := st.cats
  match categories.findIdx? (fun c => c.key == categoryKey) with
  | none => throw "Category not found"
  | some categoryIndex =>
    let category ← Category.restore (categories.getD categoryIndex default)
    let renameRequested : Bool :=
      match updates.name with
      | some nm => nm != "" && nm != category.name
      | none => false
    if renameRequested && Category.nameExists categories (updates.name.getD "") (some categoryKey) then
      throw "Category name already exists"
    let _rejectedPromise := Category.entityUpdate category none updates
    pure ({ st with cats := categories.set categoryIndex category.toObject }, category)

/-- The bulk embedded-document update
`actor.updateEmbeddedDocuments('Item', updates)` with update patches
`system.category = ''` for the given item ids: every item whose id is
listed gets an empty category reference, all other items are
untouched. -/
def clearCategoryByIds (ids : List String) (items : List Item) : List Item :=
  items.map (fun it => if ids.contains it.id then { it with category := "" } else it)

/-- `CategoryManager.delete(actor, categoryKey)` (the services variant
that cascades to notes): throws when the key is empty or matches no
record; removes the record from the list; clears `system.category` on
every note item referencing the key via one bulk embedded-document
update; persists the filtered list. There is no check for the default
`Notes` category and no check for the last remaining category. -/
def CategoryManager.delete (st : ActorState) (categoryKey : String) :
    Except String ActorState :=
  if categoryKey = "" then .error "Category key must be provided"
  else
    let filteredCategories := st.cats.filter (fun c => c.key != categoryKey)
    if filteredCategories.length = st.cats.length then .error "Category not found"
    else
      let notesInCategory := st.items.filter (fun it =>
        it.itemType == noteTypeId && it.category == categoryKey)
      let updateIds := notesInCategory.map (fun n => n.id)
      let items' :=
        if 0 < updateIds.length then clearCategoryByIds updateIds st.items
        else st.items
      .ok { st with cats := filteredCategories, items := items' }

/-- `migrateToV1(actor)` (`src/migrations/v1.js`): when no category
named `Notes` exists and at least one note item has an empty category
reference, synthesize the default category (fresh random key, name
`Notes`, ordering 0, not collapsed), prepend it to the category list,
persist, and point every previously uncategorized note at the new
key. -/
def migrateToV1 (freshKey : String) (st : ActorState) : ActorState :=
  let categories := st.cats
  let hasDefaultCategory := categories.any (fun c => c.name == "Notes")
  if hasDefaultCategory then st
  else
    let uncategorizedNotes := st.items.filter (fun it =>
      it.itemType == noteTypeId && it.category == "")
    if uncategorizedNotes.isEmpty then st
    else
      let defaultCategory : CategoryObj :=
        { key := freshKey, name := "Notes", ordering := 0, collapsed := false }
      let items' := st.items.map (fun it =>
        if it.itemType == noteTypeId && it.category == "" then
          { it with category := freshKey }
        else it)
      { st with cats := defaultCategory :: categories, items := items' }

/-- The latest defined migration version. -/
def MIGRATION_VERSION : Nat := 1

/-- `runMigrations(actor)` (migration core): return immediately when the
stored version is already at least the latest; stamp a brand-new actor
(undefined version, no note items, no categories) directly to the
latest version; otherwise run every migration procedure from the stored
version (defaulting to 0) up to the latest — the table holds the single
version-1 procedure — and stamp the latest version. -/
def runMigrations (freshKey : String) (st : ActorState) : ActorState :=
  match st.version with
  | some currentVersion =>
    if MIGRATION_VERSION ≤ currentVersion then st
    else
      let st1 :=
        if currentVersion + 1 ≤ MIGRATION_VERSION then migrateToV1 freshKey st else st
      { st1 with version := some MIGRATION_VERSION }
  | none =>
    let hasAnyNotes := st.items.any (fun it => it.itemType == noteTypeId)
    let hasCategories := decide (0 < st.cats.length)
    if !hasAnyNotes && !hasCategories then
      { st with version := some MIGRATION_VERSION }
    else
      { migrateToV1 freshKey st with version := some MIGRATION_VERSION }

/-- The audit stats block of a note (`_stats` in `src/models/Note.js`). -/
structure NoteStats where
  createdTime : Int
  modifiedTime : Int
  lastModifiedBy : String
deriving Repr, DecidableEq, Inhabited

/-- The structured text block of a note: rendered content, format enum
(1 = HTML, 2 = Markdown), and the raw markdown source only when
present. -/
structure NoteText where
  content : String
  format : Nat
  markdown : Option String
deriving Repr, DecidableEq, Inhabited

/-- The module-scoped flags block of a note (its category reference;
`none` models a null reference). -/
structure NoteFlags where
  category : Option String
deriving Repr, DecidableEq, Inhabited

/-- A `Note` instance from `src/models/Note.js`; its plain
`toObject()` shape carries the same fields. -/
structure Note where
  key : String
  name : String
  sort : Int
  text : NoteText
  flags : NoteFlags
  stats : NoteStats
deriving Repr, DecidableEq, Inhabited

/-- A data object updating the `_stats` block; absent fields are
`none`. -/
structure NoteStatsUpd where
  createdTime : Option Int := none
  modifiedTime : Option Int := none
  lastModifiedBy : Option String := none
deriving Repr, DecidableEq, Inhabited

/-- A data object updating the `text` block. -/
structure NoteTextUpd where
  content : Option String := none
  format : Option Nat := none
  markdown : Option String := none
deriving Repr, DecidableEq, Inhabited

/-- A data object updating the flags block; the outer `Option` models
whether the category key is present in the object, the inner one its
possibly-null value. -/
structure NoteFlagsUpd where
  category : Option (Option String) := none
deriving Repr, DecidableEq, Inhabited

/-- A data object passed to `Note.prototype.update`; absent fields are
`none`. -/
structure NoteUpd where
  key : Option String := none
  name : Option String := none
  sort : Option Int := none
  text : Option NoteTextUpd := none
  flags : Option NoteFlagsUpd := none
  stats : Option NoteStatsUpd := none
deriving Repr, DecidableEq, Inhabited

/-- Recursive `mergeObject` on the `_stats` block. -/
def mergeStats (base : NoteStats) (u : NoteStatsUpd) : NoteStats :=
  { createdTime := u.createdTime.getD base.createdTime
    modifiedTime := u.modifiedTime.getD base.modifiedTime
    lastModifiedBy := u.lastModifiedBy.getD base.lastModifiedBy }

/-- Recursive `mergeObject` on the `text` block. -/
def mergeText (base : NoteText) (u : NoteTextUpd) : NoteText :=
  { content := u.content.getD base.content
    format := u.format.getD base.format
    markdown := u.markdown.orElse (fun _ => base.markdown) }

/-- Recursive `mergeObject` on the flags block. -/
def mergeFlags (base : NoteFlags) (u : NoteFlagsUpd) : NoteFlags :=
  { category := u.category.getD base.category }

/-- `foundry.utils.mergeObject(base, u)` specialised to the note shape:
top-level fields present in `u` override `base`, nested objects merge
recursively. -/
def mergeNote (base : Note) (u : NoteUpd) : Note :=
  { key := u.key.getD base.key
    name := u.name.getD base.name
    sort := u.sort.getD base.sort
    text := match u.text with
            | none => base.text
            | some t => mergeText base.text t
    flags := match u.flags with
             | none => base.flags
             | some f => mergeFlags base.flags f
    stats := match u.stats with
             | none => base.stats
             | some s => mergeStats base.stats s }

/-- `Note.prototype.validate()`: key and name non-empty strings, sort a
number, text content a string, format 1 or 2, `_stats` an object (the
typed fields make the type-of checks vacuous here). -/
def Note.validate (n : Note) : Except String Unit := do
  if n.key = "" then
    throw "Note key must be a non-empty string"
  if n.name = "" then
    throw "Note name must be a non-empty string"
  if n.text.format ≠ 1 ∧ n.text.format ≠ 2 then
    throw "Note text.format must be 1 or 2"
  pure ()

/-- `Note.prototype.update(updates)`: build the update data by merging
the audit stamps (`modifiedTime = Date.now()`, `lastModifiedBy =
game.user.id`) over the incoming data — so an incoming
`_stats.createdTime` survives into the update data — merge that over
`this.toObject()`, assign every field except `this.key`, and
re-validate. -/
def Note.update (now : Int) (userId : String) (n : Note) (u : NoteUpd) :
    Except String Note :=
  let statsUpd : NoteStatsUpd :=
    match u.stats with
    | none => { createdTime := none, modifiedTime := some now, lastModifiedBy := some userId }
    | some s => { s with modifiedTime := some now, lastModifiedBy := some userId }
  let updateData : NoteUpd := { u with stats := some statsUpd }
  let mergedData := mergeNote n updateData
  let n' : Note := { mergedData with key := n.key }
  match n'.validate with
  | .ok _ => .ok n'
  | .error e => .error e

/-! Helper lemmas shared by several verification results. -/

/-- Projecting a wrapped plain object returns the same plain object. -/
theorem Category.toObject_ofObj (o : CategoryObj) (b : Bool) :
    (Category.ofObj o b).toObject = o := rfl

/-- Wrapping every stored record and projecting back is the
identity. -/
theorem Category.map_toObject_ofObj (l : List CategoryObj) :
    l.map (fun o => (Category.ofObj o false).toObject) = l := by
  induction l with
  | nil => rfl
  | cons a t ih =>
    rw [List.map_cons, ih]
    rfl

/-- Re-instantiating a valid stored record succeeds and returns an
instance carrying the same four fields and no actor. -/
theorem Category.restore_ok (o : CategoryObj) (h : o.validate = .ok ()) :
    Category.restore o = .ok (Category.ofObj o false) := by
  simp [Category.restore, Category.construct, mergeCategory, CategoryObj.toData, h]

/-- Re-instantiating a list of valid stored records succeeds and
returns the corresponding instances in order. -/
theorem Category.restoreAll_ok (cats : List CategoryObj)
    (h : ∀ o ∈ cats, o.validate = .ok ()) :
    Category.restoreAll cats = .ok (cats.map (fun o => Category.ofObj o false)) := by
  induction cats with
  | nil => rfl
  | cons a l ih =>
    have ha : a.validate = .ok () := h a (List.mem_cons_self a l)
    have hl := ih (fun o ho => h o (List.mem_cons_of_mem a ho))
    simp only [Category.restoreAll, Category.restore_ok a ha, hl]
    rfl

/-! Claim C1: concrete input on which `CategoryManager.update` fails to
apply the requested field changes. -/

/-- The stored category used in the C1 evaluation. -/
def c1cat : CategoryObj :=
  { key := "a", name := "Original", ordering := 0, collapsed := false }

/-- The actor state used in the C1 evaluation. -/
def c1st : ActorState := { cats := [c1cat], items := [], version := none }

/-- Claim C1 (code bug evaluation): `CategoryManager.update` on a
present key with the valid rename data `name = "Updated"` resolves
successfully but persists and returns the category still named
`Original`: the entity `Category.update` call is not awaited and
rejects (the instance has no actor) before merging anything, so the
requested update is silently dropped, contradicting the claim that the
merged update is applied and persisted. -/
theorem categoryManager_update_drops_updates :
    CategoryManager.update c1st "a" { name := some "Updated" } =
      .ok (c1st, Category.ofObj c1cat false) := by
  rfl

/-! Claim C2: concrete input on which deleting the sole remaining
category succeeds instead of failing. -/

/-- The single stored category used in the C2 evaluation. -/
def c2cat : CategoryObj :=
  { key := "a", name := "Solo", ordering := 0, collapsed := false }

/-- Claim C2 (code bug evaluation): `CategoryManager.delete` on a
parent whose list holds exactly one category succeeds and persists the
empty list — there is no last-category guard — contradicting the claim
(and the repository's own quench test expecting the error `Cannot
delete the last category`). -/
theorem categoryManager_delete_last_succeeds :
    CategoryManager.delete { cats := [c2cat], items := [], version := none } "a" =
      .ok { cats := [], items := [], version := none } := by
  rfl

/-! Claim C3: concrete input on which the distinguished `Notes`
category is deleted by `CategoryManager.delete`. -/

/-- The distinguished default category used in the C3 evaluation. -/
def c3notesCat : CategoryObj :=
  { key := "n", name := "Notes", ordering := 0, collapsed := false }

/-- A sibling category used in the C3 evaluation. -/
def c3otherCat : CategoryObj :=
  { key := "o", name := "Combat", ordering := 0, collapsed := false }

/-- Claim C3 (code bug evaluation): `CategoryManager.delete` performs
no name check, so deleting the category named `Notes` succeeds and
removes it from the persisted list — contradicting the claim (and the
guard in `entities/category.js`, whose own delete throws `Cannot delete
the default Notes category`). -/
theorem categoryManager_delete_removes_notes_category :
    CategoryManager.delete
        { cats := [c3notesCat, c3otherCat], items := [], version := none } "n" =
      .ok { cats := [c3otherCat], items := [], version := none } := by
  rfl

/-- Reduction of a successful bind in the `Except` monad. -/
theorem exceptOkBind {ε α β : Type} (a : α) (f : α → Except ε β) :
    (Except.ok a : Except ε α) >>= f = f a := rfl

/-! Claim C7: `getAllCategories` sorts alphabetically by name. -/

/-- Claim C7: for every actor state whose stored category records are
valid, `CategoryManager.getAllCategories` succeeds and returns a
permutation of the stored records (as instances) sorted by the
name-only comparator `catLe` — alphabetical order regardless of the
persisted insertion order and regardless of each category's own
`ordering` field, which the comparator never reads. -/
theorem getAllCategories_sorted (st : ActorState)
    (h : ∀ o ∈ st.cats, o.validate = .ok ()) :
    ∃ l, CategoryManager.getAllCategories st = .ok l ∧
      (l.map Category.toObject).Perm st.cats ∧ l.Sorted catLe := by
  refine ⟨List.insertionSort catLe (st.cats.map (fun o => Category.ofObj o false)), ?_, ?_, ?_⟩
  · simp only [CategoryManager.getAllCategories, Category.restoreAll_ok st.cats h, exceptOkBind]
    rfl
  · have hperm :=
      (List.perm_insertionSort catLe (st.cats.map (fun o => Category.ofObj o false))).map
        Category.toObject
    rw [List.map_map] at hperm
    have hid : st.cats.map (Category.toObject ∘ fun o => Category.ofObj o false) = st.cats :=
      Category.map_toObject_ofObj st.cats
    rwa [hid] at hperm
  · exact List.sorted_insertionSort catLe _

/-- Claim C7 witness: the spec's own example — stored order Zulu,
Alpha, Mike. -/
def c7state : ActorState :=
  { cats := [{ key := "z", name := "Zulu", ordering := 0, collapsed := false },
             { key := "a", name := "Alpha", ordering := 0, collapsed := false },
             { key := "m", name := "Mike", ordering := 1, collapsed := false }],
    items := [], version := none }

/-- Claim C7 witness: the sortedness theorem applied to the concrete
Zulu/Alpha/Mike state. -/
theorem getAllCategories_sorted_witness :
    (∀ o ∈ c7state.cats, o.validate = .ok ()) ∧
    (∃ l, CategoryManager.getAllCategories c7state = .ok l ∧
      (l.map Category.toObject).Perm c7state.cats ∧ l.Sorted catLe) :=
  ⟨by intro o ho; fin_cases ho <;> rfl,
   getAllCategories_sorted c7state (by intro o ho; fin_cases ho <;> rfl)⟩

/-! Claim C8: creation fails on a case-insensitive duplicate name and
leaves the list unchanged, otherwise appends. -/

/-- Claim C8: whenever the constructed category's name collides
case-insensitively with an existing sibling, `CategoryManager.create`
fails with the duplicate-name error before any write, so the persisted
list is untouched; without a collision it appends the new category's
plain object to the stored list and returns the created instance. -/
theorem categoryManager_create_duplicate (freshKey : String) (st : ActorState)
    (data : CategoryData) (c : Category)
    (hmk : Category.construct freshKey data false = .ok c)
    (hval : ∀ o ∈ st.cats, o.validate = .ok ()) :
    (Category.nameExists st.cats c.name none = true →
      CategoryManager.create freshKey st data = .error "Category name already exists") ∧
    (Category.nameExists st.cats c.name none = false →
      CategoryManager.create freshKey st data =
        .ok ({ st with cats := st.cats ++ [c.toObject] }, c)) := by
  have hrest := Category.restoreAll_ok st.cats hval
  have hmap : (st.cats.map (fun o => Category.ofObj o false)).map Category.toObject
      = st.cats := by
    rw [List.map_map]
    exact Category.map_toObject_ofObj st.cats
  constructor
  · intro hdup
    simp only [CategoryManager.create, hmk, hrest, exceptOkBind, hmap, hdup, if_true]
    rfl
  · intro hdup
    simp only [CategoryManager.create, hmk, hrest, exceptOkBind, hmap, hdup,
      Bool.false_eq_true, if_false]
    rfl

/-- Claim C8 witness: creating `combat` when `Combat` already exists
fails with the duplicate-name error. -/
def c8state : ActorState :=
  { cats := [{ key := "c1", name := "Combat", ordering := 0, collapsed := false }],
    items := [], version := none }

/-- Claim C8 witness: the create theorem applied to the spec's
Combat/combat example. -/
theorem categoryManager_create_duplicate_witness :
    Category.construct "z" { name := some "combat" } false =
      .ok (Category.ofObj { key := "z", name := "combat", ordering := 0, collapsed := false }
        false) ∧
    (∀ o ∈ c8state.cats, o.validate = .ok ()) ∧
    CategoryManager.create "z" c8state { name := some "combat" } =
      .error "Category name already exists" :=
  ⟨rfl, by intro o ho; fin_cases ho; rfl,
   (categoryManager_create_duplicate "z" c8state { name := some "combat" }
      (Category.ofObj { key := "z", name := "combat", ordering := 0, collapsed := false } false)
      rfl (by intro o ho; fin_cases ho; rfl)).1 (by decide)⟩

/-! Claim C4: a successful `CategoryManager.delete` leaves no note
referencing the deleted key. -/

/-- Claim C4: whenever `CategoryManager.delete` succeeds, the category
record is removed from the persisted list, every note item that
referenced the deleted key now carries the empty category reference,
and no note item of the resulting state references the deleted key. -/
theorem categoryManager_delete_clears_references (st st' : ActorState) (key : String)
    (h : CategoryManager.delete st key = .ok st') :
    st'.cats = st.cats.filter (fun c => c.key != key) ∧
    (∀ it ∈ st.items, it.itemType = noteTypeId → it.category = key →
      ({ it with category := "" } : Item) ∈ st'.items) ∧
    (∀ it ∈ st'.items, it.itemType = noteTypeId → it.category ≠ key) := by
  by_cases hk : key = ""
  · rw [CategoryManager.delete, if_pos hk] at h
    exact absurd h (by simp)
  · by_cases hlen : (st.cats.filter (fun c => c.key != key)).length = st.cats.length
    · rw [CategoryManager.delete, if_neg hk] at h
      simp only [if_pos hlen] at h
      exact absurd h (by simp)
    · rw [CategoryManager.delete, if_neg hk] at h
      simp only [if_neg hlen, Except.ok.injEq] at h
      subst h
      refine ⟨rfl, ?_, ?_⟩
      · intro it hit hty hcat
        have hmem : it ∈ st.items.filter (fun it =>
            it.itemType == noteTypeId && it.category == key) := by
          rw [List.mem_filter]
          exact ⟨hit, by simp [hty, hcat]⟩
        have hid : it.id ∈ (st.items.filter (fun it =>
            it.itemType == noteTypeId && it.category == key)).map (fun n => n.id) :=
          List.mem_map_of_mem (fun n => n.id) hmem
        have hpos : 0 < ((st.items.filter (fun it =>
            it.itemType == noteTypeId && it.category == key)).map (fun n => n.id)).length :=
          List.length_pos.mpr (List.ne_nil_of_mem hid)
        simp only [hpos, if_true]
        refine List.mem_map.mpr ⟨it, hit, ?_⟩
        have hcon : (((st.items.filter (fun it =>
            it.itemType == noteTypeId && it.category == key)).map
              (fun n => n.id)).contains it.id) = true := by
          simp only [List.contains, List.elem_eq_mem, decide_eq_true_eq]
          exact hid
        rw [if_pos hcon]
      · intro it' hit' hty'
        by_cases hpos : 0 < ((st.items.filter (fun it =>
            it.itemType == noteTypeId && it.category == key)).map (fun n => n.id)).length
        · simp only [hpos, if_true] at hit'
          obtain ⟨it, hit, hf⟩ := List.mem_map.mp hit'
          by_cases hc : (((st.items.filter (fun it =>
              it.itemType == noteTypeId && it.category == key)).map
                (fun n => n.id)).contains it.id) = true
          · rw [if_pos hc] at hf
            rw [← hf]
            exact fun hcc => hk hcc.symm
          · rw [if_neg hc] at hf
            intro hcat
            apply hc
            have hmem : it ∈ st.items.filter (fun it =>
                it.itemType == noteTypeId && it.category == key) := by
              rw [List.mem_filter]
              refine ⟨hit, ?_⟩
              rw [hf]
              simp [hty', hcat]
            simp only [List.contains, List.elem_eq_mem, decide_eq_true_eq]
            exact List.mem_map_of_mem (fun n => n.id) hmem
        · simp only [hpos, if_false] at hit'
          intro hcat
          apply hpos
          have hmem : it' ∈ st.items.filter (fun it =>
              it.itemType == noteTypeId && it.category == key) := by
            rw [List.mem_filter]
            exact ⟨hit', by simp [hty', hcat]⟩
          exact List.length_pos.mpr
            (List.ne_nil_of_mem (List.mem_map_of_mem (fun n => n.id) hmem))

/-- Claim C4 witness: the state before deleting category `a`. -/
def c4state : ActorState :=
  { cats := [{ key := "a", name := "Alpha", ordering := 0, collapsed := false },
             { key := "b", name := "Beta", ordering := 0, collapsed := false }],
    items := [{ id := "i1", itemType := noteTypeId, category := "a" },
              { id := "i2", itemType := noteTypeId, category := "b" },
              { id := "i3", itemType := "weapon", category := "a" }],
    version := none }

/-- Claim C4 witness: the state after deleting category `a` — the note
that referenced it is cleared, the other note and the non-note item are
untouched. -/
def c4result : ActorState :=
  { cats := [{ key := "b", name := "Beta", ordering := 0, collapsed := false }],
    items := [{ id := "i1", itemType := noteTypeId, category := "" },
              { id := "i2", itemType := noteTypeId, category := "b" },
              { id := "i3", itemType := "weapon", category := "a" }],
    version := none }

/-- Claim C4 witness: the cascade theorem applied to the concrete
two-category state. -/
theorem categoryManager_delete_clears_references_witness :
    CategoryManager.delete c4state "a" = .ok c4result ∧
    (c4result.cats = c4state.cats.filter (fun c => c.key != "a") ∧
     (∀ it ∈ c4state.items, it.itemType = noteTypeId → it.category = "a" →
       ({ it with category := "" } : Item) ∈ c4result.items) ∧
     (∀ it ∈ c4result.items, it.itemType = noteTypeId → it.category ≠ "a")) :=
  ⟨by rfl, categoryManager_delete_clears_references c4state c4result "a" (by rfl)⟩

/-! Claim C5: the version-1 migration creates the default category,
recategorizes the uncategorized notes, and is idempotent. -/

/-- Claim C5: on a parent with no category named `Notes` and at least
one note item with an empty category reference, `migrateToV1` prepends
a fresh default category (the fresh key, name `Notes`, ordering 0, not
collapsed) to the persisted list, points every previously
uncategorized note at the fresh key, and running the migration again on
the result is a no-op. -/
theorem migrateToV1_creates_default (st : ActorState) (fk fk2 : String)
    (hnoDefault : ∀ c ∈ st.cats, c.name ≠ "Notes")
    (it0 : Item) (hit0 : it0 ∈ st.items) (hty0 : it0.itemType = noteTypeId)
    (hcat0 : it0.category = "") :
    (migrateToV1 fk st).cats =
      { key := fk, name := "Notes", ordering := 0, collapsed := false } :: st.cats ∧
    (∀ it ∈ st.items, it.itemType = noteTypeId → it.category = "" →
      ({ it with category := fk } : Item) ∈ (migrateToV1 fk st).items) ∧
    migrateToV1 fk2 (migrateToV1 fk st) = migrateToV1 fk st := by
  have hdef : st.cats.any (fun c => c.name == "Notes") = false := by
    rw [List.any_eq_false]
    intro c hc
    simp [hnoDefault c hc]
  have hmem0 : it0 ∈ st.items.filter (fun it =>
      it.itemType == noteTypeId && it.category == "") := by
    rw [List.mem_filter]
    exact ⟨hit0, by simp [hty0, hcat0]⟩
  have hne : (st.items.filter (fun it =>
      it.itemType == noteTypeId && it.category == "")).isEmpty = false :=
    List.isEmpty_eq_false.mpr (List.ne_nil_of_mem hmem0)
  have hrun : migrateToV1 fk st = { st with
      cats := { key := fk, name := "Notes", ordering := 0, collapsed := false } :: st.cats,
      items := st.items.map (fun it =>
        if it.itemType == noteTypeId && it.category == "" then
          { it with category := fk }
        else it) } := by
    rw [migrateToV1]
    simp only [hdef, Bool.false_eq_true, if_false, hne, if_true]
  refine ⟨by rw [hrun], ?_, ?_⟩
  · intro it hit hty hcat
    rw [hrun]
    refine List.mem_map.mpr ⟨it, hit, ?_⟩
    have hp : (it.itemType == noteTypeId && it.category == "") = true := by
      simp [hty, hcat]
    rw [if_pos hp]
  · rw [hrun, migrateToV1]
    have hdef2 : (({ key := fk, name := "Notes", ordering := 0, collapsed := false }
        : CategoryObj) :: st.cats).any (fun c => c.name == "Notes") = true := by
      simp
    simp only [hdef2, if_true]

/-- Claim C5 witness: the actor used for the concrete migration run. -/
def c5state : ActorState :=
  { cats := [{ key := "c", name := "Combat", ordering := 0, collapsed := false }],
    items := [{ id := "i1", itemType := noteTypeId, category := "" }],
    version := none }

/-- Claim C5 witness: the migration theorem applied to a parent with
one uncategorized note and no `Notes` category. -/
theorem migrateToV1_creates_default_witness :
    (∀ c ∈ c5state.cats, c.name ≠ "Notes") ∧
    ((migrateToV1 "k1" c5state).cats =
      { key := "k1", name := "Notes", ordering := 0, collapsed := false } :: c5state.cats ∧
    (∀ it ∈ c5state.items, it.itemType = noteTypeId → it.category = "" →
      ({ it with category := "k1" } : Item) ∈ (migrateToV1 "k1" c5state).items) ∧
    migrateToV1 "k2" (migrateToV1 "k1" c5state) = migrateToV1 "k1" c5state) :=
  ⟨by intro c hc; fin_cases hc; decide,
   migrateToV1_creates_default c5state "k1" "k2"
     (by intro c hc; fin_cases hc; decide)
     { id := "i1", itemType := noteTypeId, category := "" }
     (by simp [c5state]) rfl rfl⟩

/-! Claim C6: the migration runner fast-path for brand-new parents. -/

/-- Claim C6: on a brand-new parent — undefined version flag, no note
items, no categories — `runMigrations` stamps the version flag directly
to the latest defined version and changes nothing else: no category is
created and no upgrade procedure runs. -/
theorem runMigrations_brand_new (st : ActorState) (fk : String)
    (hv : st.version = none) (hn : ∀ it ∈ st.items, it.itemType ≠ noteTypeId)
    (hc : st.cats = []) :
    runMigrations fk st = { st with version := some MIGRATION_VERSION } ∧
    (runMigrations fk st).cats = [] := by
  have hnotes : st.items.any (fun it => it.itemType == noteTypeId) = false := by
    rw [List.any_eq_false]
    intro it hit
    simp [hn it hit]
  have hmain : runMigrations fk st = { st with version := some MIGRATION_VERSION } := by
    rw [runMigrations, hv]
    simp only [hnotes, hc]
    simp [hc]
  exact ⟨hmain, by rw [hmain, hc]⟩

/-- Claim C6 witness: the empty brand-new actor. -/
def c6state : ActorState := { cats := [], items := [], version := none }

/-- Claim C6 witness: the fast-path theorem applied to the empty
actor. -/
theorem runMigrations_brand_new_witness :
    runMigrations "k" c6state = { c6state with version := some MIGRATION_VERSION } ∧
    (runMigrations "k" c6state).cats = [] :=
  runMigrations_brand_new c6state "k" rfl (by intro it hit; simp [c6state] at hit) rfl

/-! Claim C9: audit stamping of `Note.update`. -/

/-- Extract the computed note from a successful run of the
validate-then-return tail of `Note.update`. -/
theorem exceptMatchOk {N n' : Note}
    (h : (match N.validate with
          | .ok _ => (.ok N : Except String Note)
          | .error e => .error e) = .ok n') : n' = N := by
  cases hv : N.validate with
  | ok u =>
    rw [hv] at h
    exact (Except.ok.inj h).symm
  | error e =>
    rw [hv] at h
    exact absurd h (by simp)

/-- The note used in the C9 counterexample. -/
def c9note : Note :=
  { key := "k", name := "A", sort := 0,
    text := { content := "", format := 1, markdown := none },
    flags := { category := none },
    stats := { createdTime := 100, modifiedTime := 100, lastModifiedBy := "u1" } }

/-- The update data used in the C9 counterexample: it carries its own
`_stats.createdTime`. -/
def c9upd : NoteUpd := { stats := some { createdTime := some 999 } }

/-- Claim C9 counterexample: a valid update whose data carries
`_stats.createdTime` rewrites the note's creation timestamp from 100
to 999 — the stamping merge only overwrites `modifiedTime` and
`lastModifiedBy`, so the incoming `createdTime` survives into the
merged state, refuting the claim that `createdTime` is never
altered. -/
theorem note_update_alters_createdTime :
    Note.update 200 "u2" c9note c9upd =
      .ok { key := "k", name := "A", sort := 0,
            text := { content := "", format := 1, markdown := none },
            flags := { category := none },
            stats := { createdTime := 999, modifiedTime := 200, lastModifiedBy := "u2" } } ∧
    c9note.stats.createdTime = 100 :=
  ⟨rfl, rfl⟩

/-- Claim C9 amended: every successful `Note.update` stamps
`_stats.modifiedTime` to the current time and `_stats.lastModifiedBy`
to the current user, never alters the note's key, and leaves every
non-audit field not named in the update data unchanged — all of this
for every update data whatsoever; `_stats.createdTime` is additionally
preserved whenever the update data does not itself carry a
`_stats.createdTime` value. -/
theorem note_update_stamps_and_preserves (now : Int) (userId : String)
    (n n' : Note) (u : NoteUpd)
    (h : Note.update now userId n u = .ok n') :
    n'.key = n.key ∧
    n'.stats.modifiedTime = now ∧
    n'.stats.lastModifiedBy = userId ∧
    ((∀ s, u.stats = some s → s.createdTime = none) →
      n'.stats.createdTime = n.stats.createdTime) ∧
    (u.name = none → n'.name = n.name) ∧
    (u.sort = none → n'.sort = n.sort) ∧
    (u.text = none → n'.text = n.text) ∧
    (u.flags = none → n'.flags = n.flags) := by
  have hN : n' = { mergeNote n { u with stats := some (match u.stats with
      | none => { createdTime := none, modifiedTime := some now,
                  lastModifiedBy := some userId }
      | some s => { s with modifiedTime := some now, lastModifiedBy := some userId }) }
      with key := n.key } := by
    rw [Note.update] at h
    exact exceptMatchOk h
  subst hN
  refine ⟨rfl, ?_, ?_, fun hcr => ?_, fun hname => ?_, fun hsort => ?_, fun htext => ?_,
    fun hflags => ?_⟩
  · cases hu : u.stats with
    | none => simp [mergeNote, mergeStats, hu]
    | some s => simp [mergeNote, mergeStats, hu]
  · cases hu : u.stats with
    | none => simp [mergeNote, mergeStats, hu]
    | some s => simp [mergeNote, mergeStats, hu]
  · cases hu : u.stats with
    | none => simp [mergeNote, mergeStats, hu]
    | some s => simp [mergeNote, mergeStats, hu, hcr s hu]
  · simp [mergeNote, hname]
  · simp [mergeNote, hsort]
  · simp [mergeNote, htext]
  · simp [mergeNote, hflags]

/-- Claim C9 witness: a rename-only update of a concrete note. -/
def c9witnessUpd : NoteUpd := { name := some "B" }

/-- Claim C9 witness: the amended theorem applied to a concrete note
and a rename-only update. -/
theorem note_update_stamps_and_preserves_witness :
    Note.update 200 "u2" c9note c9witnessUpd =
      .ok { key := "k", name := "B", sort := 0,
            text := { content := "", format := 1, markdown := none },
            flags := { category := none },
            stats := { createdTime := 100, modifiedTime := 200, lastModifiedBy := "u2" } } ∧
    ((Note.update 200 "u2" c9note c9witnessUpd).map Note.key = .ok c9note.key ∧
     (Note.update 200 "u2" c9note c9witnessUpd).map (fun m => m.stats.modifiedTime) =
       .ok 200 ∧
     (Note.update 200 "u2" c9note c9witnessUpd).map (fun m => m.stats.lastModifiedBy) =
       .ok "u2" ∧
     (Note.update 200 "u2" c9note c9witnessUpd).map (fun m => m.stats.createdTime) =
       .ok c9note.stats.createdTime) := by
  refine ⟨rfl, ?_⟩
  have hres := note_update_stamps_and_preserves 200 "u2" c9note
    { key := "k", name := "B", sort := 0,
      text := { content := "", format := 1, markdown := none },
      flags := { category := none },
      stats := { createdTime := 100, modifiedTime := 200, lastModifiedBy := "u2" } }
    c9witnessUpd rfl
  refine ⟨?_, ?_, ?_, ?_⟩
  · rw [show Note.update 200 "u2" c9note c9witnessUpd = .ok _ from rfl]
    exact congrArg Except.ok hres.1
  · rw [show Note.update 200 "u2" c9note c9witnessUpd = .ok _ from rfl]
    exact congrArg Except.ok hres.2.1
  · rw [show Note.update 200 "u2" c9note c9witnessUpd = .ok _ from rfl]
    exact congrArg Except.ok hres.2.2.1
  · rw [show Note.update 200 "u2" c9note c9witnessUpd = .ok _ from rfl]
    exact congrArg Except.ok (hres.2.2.2.1 (by intro s hs; simp [c9witnessUpd] at hs))

/-! Claim C10: `toObject` round-trips through the constructor. -/

/-- Claim C10: `toObject` projects exactly the four persisted fields
(dropping the instance's actor attachment), and for every valid
category, feeding `toObject()` back to the constructor succeeds and
yields an instance equal to the original on all four fields. -/
theorem category_toObject_roundtrip (c : Category) (fk : String) (b : Bool)
    (hval : c.toObject.validate = .ok ()) :
    Category.construct fk c.toObject.toData b = .ok (Category.ofObj c.toObject b) ∧
    (Category.ofObj c.toObject b).toObject = c.toObject := by
  constructor
  · have hshape : Category.construct fk c.toObject.toData b =
        c.toObject.validate >>= fun _ => pure (Category.ofObj c.toObject b) := rfl
    rw [hshape, hval]
    rfl
  · rfl

/-- Claim C10 witness: a concrete valid category instance. -/
def c10cat : Category :=
  Category.ofObj { key := "k", name := "General", ordering := 1, collapsed := true } true

/-- Claim C10 witness: the round-trip theorem applied to the concrete
instance. -/
theorem category_toObject_roundtrip_witness :
    c10cat.toObject.validate = .ok () ∧
    (Category.construct "fresh" c10cat.toObject.toData false =
        .ok (Category.ofObj c10cat.toObject false) ∧
     (Category.ofObj c10cat.toObject false).toObject = c10cat.toObject) :=
  ⟨rfl, category_toObject_roundtrip c10cat "fresh" false rfl⟩

end SheetNotes
